import Mathlib

/-!
Verification of the intersection-finder script (`ttt.py`) and the flight-rate
helper (`air.py`).

The numeric root solver used by the script (`scipy.optimize.fsolve`) is
third-party library code, so it is modelled as an abstract parameter: a
function that receives the equation and a starting guess and either raises a
Python exception or returns a candidate root together with the integer
convergence flag `ier` (the first and third components of fsolve's
`full_output`).  Floating-point numbers are modelled by rational numbers
(every IEEE double is a rational); the transcendental equation itself is
modelled over the real numbers, with `EReal` supplying the `np.inf` sentinel.
-/

/-- Python exceptions relevant to `find_intersection`: the two classes caught
by its `except` clauses, and the `UnboundLocalError` raised at the final
`return roots` when neither branch of the `if` assigned `roots`. -/
inductive PyErr where
  | valueError
  | otherError
  | unboundLocalError
deriving DecidableEq

/-- The data extracted from a `fsolve(..., full_output=True)` call in the
source: `root[0]` (the single candidate root) and the status flag `ier`. -/
structure FsolveOut where
  root : ℚ
  ier : ℤ
deriving DecidableEq

/-- Abstract model of `scipy.optimize.fsolve` on a single starting guess: it
receives the equation being solved and the guess, and either raises or
returns a candidate root with its convergence flag. -/
abbrev Solver : Type := (ℝ → EReal) → ℚ → Except PyErr FsolveOut

/-- The shape of the `initial_guess` argument: a scalar (`int`/`float`), a
sequence (`list`/`np.ndarray`), or any other Python value (e.g. a tuple),
which matches neither `isinstance` test in the source. -/
inductive Guess where
  | scalar (g : ℚ)
  | vec (gs : List ℚ)
  | other

/-- The inner function `equation_to_solve` of `ttt.py` (lines 25-31):
`if x <= 0: return np.inf` and otherwise
`base_exp**x - np.log(x) / np.log(base_log)`. -/
noncomputable def equation_to_solve (base_exp base_log : ℝ) (x : ℝ) : EReal :=
  if x ≤ 0 then ⊤
  else (((base_exp ^ x - Real.log x / Real.log base_log : ℝ)) : EReal)

/-- `np.round(·, decimals=6)` rounds half to even.  This is the integer
rounding it is built from. -/
def roundHalfEven (q : ℚ) : ℤ :=
  if Int.fract q = 1 / 2 then (if 2 ∣ ⌊q⌋ then ⌊q⌋ else ⌊q⌋ + 1)
  else round q

/-- `np.round(x, decimals=6)` on a single value. -/
def np_round6 (q : ℚ) : ℚ :=
  (roundHalfEven (q * 1000000) : ℚ) / 1000000

/-- `np.unique`: sort ascending and drop duplicate values. -/
def np_unique (l : List ℚ) : List ℚ :=
  (l.insertionSort (· ≤ ·)).dedup

/-- The `for guess in initial_guess` loop of the multi-guess branch
(lines 43-48): run the solver on each guess in order and append `root[0]`
exactly when `ier == 1 and root[0] > 0`; a raised exception aborts the whole
loop. -/
def solveLoop (fsolve : Solver) (eq : ℝ → EReal) : List ℚ → Except PyErr (List ℚ)
  | [] => .ok []
  | g :: gs =>
    match fsolve eq g with
    | .error e => .error e
    | .ok r =>
      match solveLoop fsolve eq gs with
      | .error e => .error e
      | .ok rest => .ok (if r.ier = 1 ∧ 0 < r.root then r.root :: rest else rest)

/-- The `try` block of `find_intersection` (lines 37-51): `some roots` means
the local variable `roots` was assigned, `none` that neither `isinstance`
branch ran and it was left unassigned. -/
noncomputable def tryBody (fsolve : Solver) (eq : ℝ → EReal) :
    Guess → Except PyErr (Option (List ℚ))
  | .scalar g =>
    match fsolve eq g with
    | .error e => .error e
    | .ok r => .ok (some [r.root])
  | .vec gs =>
    match solveLoop fsolve eq gs with
    | .error e => .error e
    | .ok roots => .ok (some (np_unique (roots.map np_round6)))
  | .other => .ok none

/-- `find_intersection` of `ttt.py` (lines 5-60), parameterised by the solver.
The `except` clauses (lines 53-58) turn any exception raised inside the `try`
block into the empty array; the final `return roots` lies outside the `try`
and raises `UnboundLocalError` when `roots` was never assigned. -/
noncomputable def find_intersection (fsolve : Solver) (base_exp base_log : ℝ)
    (initial_guess : Guess) : Except PyErr (List ℚ) :=
  match tryBody fsolve (equation_to_solve base_exp base_log) initial_guess with
  | .error _ => .ok []
  | .ok none => .error .unboundLocalError
  | .ok (some roots) => .ok roots

/-- Spec-side characterisation of the multi-guess retention rule: the roots
whose solver call succeeded with `ier == 1` and a strictly positive root, in
guess order.  (Stated from the spec's words, to be compared with
`solveLoop`.) -/
def spec_retained_roots (fsolve : Solver) (eq : ℝ → EReal) (gs : List ℚ) : List ℚ :=
  gs.filterMap fun g =>
    match fsolve eq g with
    | .ok r => if r.ier = 1 ∧ 0 < r.root then some r.root else none
    | .error _ => none

/-- The dictionary returned by `calculate_flight_probabilities` in `air.py`. -/
structure FlightProbabilities where
  delay_rate : ℚ
  cancellation_rate : ℚ
  accident_rate : ℚ
deriving DecidableEq

/-- `calculate_flight_probabilities` of `air.py` (lines 4-33).  The boolean
records whether the `st.warning` call ran. -/
def calculate_flight_probabilities (total_flights delayed_flights
    cancelled_flights accident_flights : ℤ) : FlightProbabilities × Bool :=
  if total_flights ≤ 0 then (⟨0, 0, 0⟩, true)
  else (⟨(delayed_flights : ℚ) / (total_flights : ℚ),
         (cancelled_flights : ℚ) / (total_flights : ℚ),
         (accident_flights : ℚ) / (total_flights : ℚ)⟩, false)

/-! Concrete solver instances used to exhibit behaviours of the abstract
solver parameter. -/

/-- A solver that always reports the same outcome. -/
def constSolver (root : ℚ) (ier : ℤ) : Solver := fun _ _ => .ok ⟨root, ier⟩

/-- A solver that returns the guess itself as a converged root. -/
def guessSolver : Solver := fun _ g => .ok ⟨g, 1⟩

/-- A solver that converges at the guess except at guess `5`, where it fails
to converge. -/
def demoSolver : Solver := fun _ g => .ok ⟨g, if g = 5 then 0 else 1⟩

/-- A solver that always raises `ValueError`. -/
def failSolver : Solver := fun _ _ => .error .valueError

/-- A solver that converges at guess `1` and raises `ValueError` elsewhere. -/
def mixSolver : Solver := fun _ g =>
  if g = 1 then .ok ⟨1, 1⟩ else .error .valueError

/-! Helper lemmas about the embedded definitions. -/

theorem solveLoop_ok_eq (fsolve : Solver) (eq : ℝ → EReal) :
    ∀ (gs roots : List ℚ), solveLoop fsolve eq gs = .ok roots →
      roots = spec_retained_roots fsolve eq gs := by
  intro gs
  induction gs with
  | nil =>
    intro roots h
    simp only [solveLoop, Except.ok.injEq] at h
    simp [spec_retained_roots, ← h]
  | cons g gs ih =>
    intro roots h
    simp only [solveLoop] at h
    cases hfg : fsolve eq g with
    | error e => rw [hfg] at h; simp at h
    | ok r =>
      rw [hfg] at h
      cases hsl : solveLoop fsolve eq gs with
      | error e => rw [hsl] at h; simp at h
      | ok rest =>
        rw [hsl] at h
        simp only [Except.ok.injEq] at h
        subst h
        have hr := ih rest hsl
        simp only [spec_retained_roots, List.filterMap_cons, hfg] at hr ⊢
        by_cases hc : r.ier = 1 ∧ 0 < r.root
        · simp [hc, ← hr]
        · simp [hc, ← hr]

theorem np_unique_mem {x : ℚ} {l : List ℚ} : x ∈ np_unique l ↔ x ∈ l := by
  simp [np_unique, List.mem_dedup, List.mem_insertionSort]

theorem np_unique_nodup (l : List ℚ) : (np_unique l).Nodup :=
  List.nodup_dedup _

theorem np_round6_grid (q : ℚ) : ∃ k : ℤ, np_round6 q = (k : ℚ) / 1000000 :=
  ⟨roundHalfEven (q * 1000000), rfl⟩

theorem grid_sep {ka kb : ℤ} (h : ((ka : ℚ) / 1000000) ≠ ((kb : ℚ) / 1000000)) :
    (1 : ℚ) / 1000000 ≤ |(ka : ℚ) / 1000000 - (kb : ℚ) / 1000000| := by
  have hk : ka ≠ kb := fun he => h (by rw [he])
  have h1 : (1 : ℚ) ≤ |((ka - kb : ℤ) : ℚ)| := by
    exact_mod_cast Int.one_le_abs (sub_ne_zero_of_ne hk)
  rw [div_sub_div_same, abs_div, abs_of_pos (by norm_num : (0:ℚ) < 1000000)]
  refine (div_le_div_iff_of_pos_right (by norm_num : (0:ℚ) < 1000000)).mpr ?_
  calc (1 : ℚ) ≤ |((ka - kb : ℤ) : ℚ)| := h1
    _ = |(ka : ℚ) - (kb : ℚ)| := by push_cast; ring_nf

theorem pairwise_sep_of_nodup_grid :
    ∀ l : List ℚ, l.Nodup → (∀ x ∈ l, ∃ k : ℤ, x = (k : ℚ) / 1000000) →
      l.Pairwise (fun x y => (1 : ℚ) / 1000000 ≤ |x - y|) := by
  intro l
  induction l with
  | nil => intro _ _; simp
  | cons a l ih =>
    intro hn hg
    obtain ⟨ha, hn'⟩ := List.nodup_cons.mp hn
    refine List.pairwise_cons.mpr ⟨?_, ih hn' fun x hx => hg x (List.mem_cons_of_mem a hx)⟩
    intro b hb
    obtain ⟨ka, hka⟩ := hg a (List.mem_cons_self a l)
    obtain ⟨kb, hkb⟩ := hg b (List.mem_cons_of_mem a hb)
    have hne : a ≠ b := fun he => ha (he ▸ hb)
    rw [hka, hkb]
    exact grid_sep (by rw [← hka, ← hkb]; exact hne)

theorem roundHalfEven_nonneg {q : ℚ} (h : 0 ≤ q) : 0 ≤ roundHalfEven q := by
  unfold roundHalfEven
  split_ifs with h1 h2
  · exact Int.floor_nonneg.mpr h
  · have := Int.floor_nonneg.mpr h
    omega
  · rw [round_eq]
    exact Int.floor_nonneg.mpr (by linarith)

theorem np_round6_nonneg {q : ℚ} (h : 0 ≤ q) : 0 ≤ np_round6 q := by
  unfold np_round6
  have : (0 : ℤ) ≤ roundHalfEven (q * 1000000) :=
    roundHalfEven_nonneg (by positivity)
  positivity

theorem find_vec_of_loop_ok {fsolve : Solver} {a b : ℝ} {gs roots : List ℚ}
    (h : solveLoop fsolve (equation_to_solve a b) gs = .ok roots) :
    find_intersection fsolve a b (.vec gs) = .ok (np_unique (roots.map np_round6)) := by
  simp [find_intersection, tryBody, h]

theorem find_vec_of_loop_error {fsolve : Solver} {a b : ℝ} {gs : List ℚ} {e : PyErr}
    (h : solveLoop fsolve (equation_to_solve a b) gs = .error e) :
    find_intersection fsolve a b (.vec gs) = .ok [] := by
  simp [find_intersection, tryBody, h]

theorem find_scalar_of_ok {fsolve : Solver} {a b : ℝ} {g : ℚ} {r : FsolveOut}
    (h : fsolve (equation_to_solve a b) g = .ok r) :
    find_intersection fsolve a b (.scalar g) = .ok [r.root] := by
  simp [find_intersection, tryBody, h]

theorem find_scalar_of_error {fsolve : Solver} {a b : ℝ} {g : ℚ} {e : PyErr}
    (h : fsolve (equation_to_solve a b) g = .error e) :
    find_intersection fsolve a b (.scalar g) = .ok [] := by
  simp [find_intersection, tryBody, h]

theorem find_vec_cases {fsolve : Solver} {a b : ℝ} {gs l : List ℚ}
    (h : find_intersection fsolve a b (.vec gs) = .ok l) :
    l = [] ∨ ∃ roots, solveLoop fsolve (equation_to_solve a b) gs = .ok roots ∧
      l = np_unique (roots.map np_round6) := by
  cases hsl : solveLoop fsolve (equation_to_solve a b) gs with
  | error e =>
    left
    have h2 := find_vec_of_loop_error (a := a) (b := b) hsl
    rw [h] at h2
    exact (Except.ok.injEq _ _).mp h2
  | ok roots =>
    right
    refine ⟨roots, rfl, ?_⟩
    have h2 := find_vec_of_loop_ok (a := a) (b := b) hsl
    rw [h] at h2
    exact (Except.ok.injEq _ _).mp h2

theorem log_le_div_exp_one {x : ℝ} (hx : 0 < x) : Real.log x ≤ x / Real.exp 1 := by
  have h1 : Real.log (x / Real.exp 1) ≤ x / Real.exp 1 - 1 :=
    Real.log_le_sub_one_of_pos (div_pos hx (Real.exp_pos 1))
  rw [Real.log_div (ne_of_gt hx) (Real.exp_ne_zero 1), Real.log_exp] at h1
  linarith

theorem one_le_equation_two_two {x : ℝ} (hx : 0 < x) :
    1 ≤ (2 : ℝ) ^ x - Real.log x / Real.log 2 := by
  have hL : (0.6931471803 : ℝ) < Real.log 2 := Real.log_two_gt_d9
  have hE : (2.7182818283 : ℝ) < Real.exp 1 := Real.exp_one_gt_d9
  have hLpos : (0 : ℝ) < Real.log 2 := by linarith
  have h2x : Real.log 2 * x + 1 ≤ (2 : ℝ) ^ x := by
    rw [Real.rpow_def_of_pos (by norm_num : (0:ℝ) < 2)]
    exact Real.add_one_le_exp _
  have hlog : Real.log x ≤ x / Real.exp 1 := log_le_div_exp_one hx
  have hdiv : Real.log x / Real.log 2 ≤ (x / Real.exp 1) / Real.log 2 :=
    (div_le_div_iff_of_pos_right hLpos).mpr hlog
  have hkey : (x / Real.exp 1) / Real.log 2 ≤ Real.log 2 * x := by
    rw [div_div, div_le_iff₀ (by positivity)]
    have hone : (1 : ℝ) ≤ Real.exp 1 * Real.log 2 ^ 2 := by nlinarith
    nlinarith [mul_nonneg hx.le (sub_nonneg.mpr hone)]
  linarith

/-! Claim theorems. -/

/-- Claim C1: in the multi-guess path of `find_intersection`, a root produced
by a per-guess solver call is retained in the collected result exactly when
the solver reports convergence (`ier == 1`) and the root is strictly
positive: the list built by the loop equals the spec-side characterisation
`spec_retained_roots`. -/
theorem multi_guess_retained_iff_converged_and_positive
    (fsolve : Solver) (eq : ℝ → EReal) (gs roots : List ℚ)
    (h : solveLoop fsolve eq gs = .ok roots) :
    roots = spec_retained_roots fsolve eq gs :=
  solveLoop_ok_eq fsolve eq gs roots h

theorem multi_guess_retained_iff_converged_and_positive_witness :
    solveLoop demoSolver (equation_to_solve 2 2) [1, -3, 5] = .ok [1] ∧
    ([1] : List ℚ) = spec_retained_roots demoSolver (equation_to_solve 2 2) [1, -3, 5] :=
  ⟨by norm_num [solveLoop, demoSolver],
   multi_guess_retained_iff_converged_and_positive demoSolver (equation_to_solve 2 2)
     [1, -3, 5] [1] (by norm_num [solveLoop, demoSolver])⟩

/-- Claim C2: in the multi-guess path every retained root is rounded to six
decimal places and duplicates are removed, so any two values of the returned
root set differ by at least `1e-6`. -/
theorem multi_guess_result_pairwise_separated
    (fsolve : Solver) (a b : ℝ) (gs l : List ℚ)
    (h : find_intersection fsolve a b (.vec gs) = .ok l) :
    l.Pairwise (fun x y => (1 : ℚ) / 1000000 ≤ |x - y|) := by
  rcases find_vec_cases h with hl | ⟨roots, hsl, hl⟩
  · subst hl; simp
  · subst hl
    apply pairwise_sep_of_nodup_grid _ (np_unique_nodup _)
    intro x hx
    obtain ⟨q, _, hq⟩ := List.mem_map.mp (np_unique_mem.mp hx)
    obtain ⟨k, hk⟩ := np_round6_grid q
    exact ⟨k, by rw [← hq, hk]⟩

theorem multi_guess_result_pairwise_separated_witness :
    find_intersection guessSolver 2 2 (.vec [2, 1, 1]) = .ok [1, 2] ∧
    ([1, 2] : List ℚ).Pairwise (fun x y => (1 : ℚ) / 1000000 ≤ |x - y|) :=
  ⟨by norm_num [find_intersection, tryBody, solveLoop, guessSolver, np_unique, np_round6,
     roundHalfEven, Int.fract, round_eq, List.insertionSort, List.orderedInsert],
   multi_guess_result_pairwise_separated guessSolver 2 2 [2, 1, 1] [1, 2]
     (by norm_num [find_intersection, tryBody, solveLoop, guessSolver, np_unique, np_round6,
       roundHalfEven, Int.fract, round_eq, List.insertionSort, List.orderedInsert])⟩

/-- Claim C3: the equation handed to the solver computes
`a^x - ln(x)/ln(b)` for every `x > 0` and returns the sentinel `+infinity`
for every `x ≤ 0` instead of raising. -/
theorem equation_formula_and_sentinel (a b x : ℝ) :
    (0 < x → equation_to_solve a b x = (((a ^ x - Real.log x / Real.log b : ℝ)) : EReal)) ∧
    (x ≤ 0 → equation_to_solve a b x = ⊤) := by
  constructor
  · intro hx; rw [equation_to_solve, if_neg (not_le.mpr hx)]
  · intro hx; rw [equation_to_solve, if_pos hx]

theorem equation_formula_and_sentinel_witness :
    equation_to_solve 2 2 1 = ((2 : ℝ) : EReal) ∧ equation_to_solve 2 2 (-1) = ⊤ := by
  constructor
  · rw [(equation_formula_and_sentinel 2 2 1).1 (by norm_num)]
    rw [EReal.coe_eq_coe_iff, Real.rpow_one, Real.log_one]
    norm_num
  · exact (equation_formula_and_sentinel 2 2 (-1)).2 (by norm_num)

/-- Claim C5: when the guess is a single scalar, one solver call is made from
that point and its raw result is returned: no convergence check, positivity
filter, rounding, or deduplication is applied. -/
theorem scalar_path_returns_raw_root (fsolve : Solver) (a b : ℝ) (g : ℚ) (r : FsolveOut)
    (h : fsolve (equation_to_solve a b) g = .ok r) :
    find_intersection fsolve a b (.scalar g) = .ok [r.root] :=
  find_scalar_of_ok h

theorem scalar_path_returns_raw_root_witness :
    find_intersection (constSolver 7 0) 2 2 (.scalar 1) = .ok [7] :=
  scalar_path_returns_raw_root (constSolver 7 0) 2 2 1 ⟨7, 0⟩ rfl

/-- Claim C8: a `ValueError` or other exception raised by a solver call inside
the `try` block is caught and converted into an empty returned array, in both
the scalar and the multi-guess path; no exception propagates and no partial
result leaks (an error midway through the loop discards the roots already
collected). -/
theorem exceptions_yield_empty_result (fsolve : Solver) (a b : ℝ) (g : ℚ)
    (gs : List ℚ) (e e2 : PyErr) :
    (fsolve (equation_to_solve a b) g = .error e →
      find_intersection fsolve a b (.scalar g) = .ok []) ∧
    (solveLoop fsolve (equation_to_solve a b) gs = .error e2 →
      find_intersection fsolve a b (.vec gs) = .ok []) :=
  ⟨fun h => find_scalar_of_error h, fun h => find_vec_of_loop_error h⟩

theorem exceptions_yield_empty_result_witness :
    find_intersection failSolver 2 2 (.scalar 1) = .ok [] ∧
    find_intersection mixSolver 2 2 (.vec [1, 3]) = .ok [] :=
  ⟨(exceptions_yield_empty_result failSolver 2 2 1 [] .valueError .valueError).1
     (by norm_num [failSolver]),
   (exceptions_yield_empty_result mixSolver 2 2 1 [1, 3] .valueError .valueError).2
     (by norm_num [solveLoop, mixSolver])⟩

/-- Claim C9: `calculate_flight_probabilities` returns all three rates equal
to `0.0` (with a warning) when `total <= 0`, and otherwise each rate is
exactly the corresponding count divided by the total. -/
theorem compute_rates_spec (total delayed cancelled accidents : ℤ) :
    (total ≤ 0 →
      calculate_flight_probabilities total delayed cancelled accidents = (⟨0, 0, 0⟩, true)) ∧
    (0 < total →
      calculate_flight_probabilities total delayed cancelled accidents =
        (⟨(delayed : ℚ) / (total : ℚ), (cancelled : ℚ) / (total : ℚ),
          (accidents : ℚ) / (total : ℚ)⟩, false)) := by
  constructor
  · intro h; rw [calculate_flight_probabilities, if_pos h]
  · intro h; rw [calculate_flight_probabilities, if_neg (not_le.mpr h)]

theorem compute_rates_spec_witness :
    calculate_flight_probabilities 0 5 3 1 = (⟨0, 0, 0⟩, true) ∧
    calculate_flight_probabilities 4 1 2 3 = (⟨1/4, 2/4, 3/4⟩, false) := by
  refine ⟨(compute_rates_spec 0 5 3 1).1 (by norm_num), ?_⟩
  rw [(compute_rates_spec 4 1 2 3).2 (by norm_num)]
  norm_num

/-- Claim C10: when the guess argument is neither a scalar nor a
list/ndarray, neither branch assigns `roots` and the `return roots` statement
outside the `try` block raises an uncaught `UnboundLocalError` instead of
degrading to an empty result. -/
theorem non_sequence_guess_raises_unbound_local (fsolve : Solver) (a b : ℝ) :
    find_intersection fsolve a b .other = .error .unboundLocalError := by
  simp [find_intersection, tryBody]

/-- Counterexample to claim C4 as stated: the single-scalar path applies no
positivity filter, so a solver outcome with a non-positive root is returned
as-is. -/
theorem scalar_path_returns_nonpositive_value :
    find_intersection (constSolver (-1) 1) 2 2 (.scalar 1) = .ok [-1] ∧
    ¬ (0 < (-1 : ℚ)) :=
  ⟨by norm_num [find_intersection, tryBody, constSolver], by norm_num⟩

/-- Claim C4, amended: in the multi-guess path every value of the returned
root set is nonnegative (it is the 6-decimal rounding of a strictly positive
retained root, which rounding can send to `0`); the single-scalar path gives
no such guarantee. -/
theorem multi_guess_result_nonneg (fsolve : Solver) (a b : ℝ) (gs l : List ℚ)
    (h : find_intersection fsolve a b (.vec gs) = .ok l) :
    ∀ x ∈ l, 0 ≤ x := by
  rcases find_vec_cases h with hl | ⟨roots, hsl, hl⟩
  · subst hl; simp
  · subst hl
    intro x hx
    obtain ⟨q, hqmem, hq⟩ := List.mem_map.mp (np_unique_mem.mp hx)
    rw [solveLoop_ok_eq fsolve _ gs roots hsl] at hqmem
    obtain ⟨g, _, hfg⟩ := List.mem_filterMap.mp hqmem
    have hqpos : 0 < q := by
      cases hcall : fsolve (equation_to_solve a b) g with
      | error e => rw [hcall] at hfg; simp at hfg
      | ok r =>
        rw [hcall] at hfg
        by_cases hc : r.ier = 1 ∧ 0 < r.root
        · simp only [if_pos hc, Option.some.injEq] at hfg
          rw [← hfg]
          exact hc.2
        · simp [hc] at hfg
    rw [← hq]
    exact np_round6_nonneg hqpos.le

theorem multi_guess_result_nonneg_witness :
    find_intersection guessSolver 2 2 (.vec [2, 1, 1]) = .ok [1, 2] ∧
    ∀ x ∈ ([1, 2] : List ℚ), 0 ≤ x :=
  ⟨by norm_num [find_intersection, tryBody, solveLoop, guessSolver, np_unique, np_round6,
     roundHalfEven, Int.fract, round_eq, List.insertionSort, List.orderedInsert],
   multi_guess_result_nonneg guessSolver 2 2 [2, 1, 1] [1, 2]
     (by norm_num [find_intersection, tryBody, solveLoop, guessSolver, np_unique, np_round6,
       roundHalfEven, Int.fract, round_eq, List.insertionSort, List.orderedInsert])⟩

/-- Counterexample to claim C6 as stated: `x = 2` and `x = 4` are not
intersection points of `y = 2^x` and `y = log_2(x)`: the equation evaluates
to `3` and `14` there, not `0`. -/
theorem two_and_four_are_not_intersections :
    equation_to_solve 2 2 2 = ((3 : ℝ) : EReal) ∧
    equation_to_solve 2 2 4 = ((14 : ℝ) : EReal) ∧
    (3 : ℝ) ≠ 0 ∧ (14 : ℝ) ≠ 0 := by
  have hlog2 : Real.log 2 ≠ 0 := ne_of_gt (by linarith [Real.log_two_gt_d9])
  refine ⟨?_, ?_, by norm_num, by norm_num⟩
  · rw [equation_to_solve, if_neg (by norm_num), EReal.coe_eq_coe_iff]
    have h4 : (2 : ℝ) ^ (2 : ℝ) = 4 := by
      rw [show (2 : ℝ) = ((2 : ℕ) : ℝ) by norm_num, Real.rpow_natCast]
      norm_num
    rw [h4, div_self hlog2]
    norm_num
  · rw [equation_to_solve, if_neg (by norm_num), EReal.coe_eq_coe_iff]
    have h16 : (2 : ℝ) ^ (4 : ℝ) = 16 := by
      rw [show (4 : ℝ) = ((4 : ℕ) : ℝ) by norm_num, Real.rpow_natCast]
      norm_num
    have hlog4 : Real.log 4 = 2 * Real.log 2 := by
      rw [show (4 : ℝ) = 2 ^ 2 by norm_num, Real.log_pow]
      push_cast
      ring
    rw [h16, hlog4, mul_div_assoc, div_self hlog2]
    norm_num

/-- Claim C6, amended: with `a = b = 2` the two curves never meet: the
equation is at least `1` on the whole domain `x > 0`, so for any solver whose
convergence flag guarantees a residual of magnitude below `1`,
`find_intersection 2 2` returns the empty root set for every guess list (the
bases for which `x = 2` and `x = 4` are intersection points would be
`a = b = sqrt 2`). -/
theorem base_two_curves_never_meet (fsolve : Solver)
    (honest : ∀ g r, fsolve (equation_to_solve 2 2) g = .ok r → r.ier = 1 →
      ∃ v : ℝ, equation_to_solve 2 2 ((r.root : ℚ) : ℝ) = (v : EReal) ∧ |v| < 1)
    (gs : List ℚ) :
    find_intersection fsolve 2 2 (.vec gs) = .ok [] := by
  cases hsl : solveLoop fsolve (equation_to_solve 2 2) gs with
  | error e => exact find_vec_of_loop_error hsl
  | ok roots =>
    have hempty : roots = [] := by
      rw [solveLoop_ok_eq fsolve _ gs roots hsl, spec_retained_roots]
      rw [List.filterMap_eq_nil_iff]
      intro g hg
      cases hcall : fsolve (equation_to_solve 2 2) g with
      | error e => simp
      | ok r =>
        simp only
        by_cases hc : r.ier = 1 ∧ 0 < r.root
        · exfalso
          obtain ⟨v, hv, hv1⟩ := honest g r hcall hc.1
          have hx : (0 : ℝ) < ((r.root : ℚ) : ℝ) := by exact_mod_cast hc.2
          rw [equation_to_solve, if_neg (not_le.mpr hx), EReal.coe_eq_coe_iff] at hv
          have h1 := one_le_equation_two_two hx
          rw [hv] at h1
          have := le_abs_self v
          linarith
        · rw [if_neg hc]
    rw [hempty] at hsl
    have h2 := find_vec_of_loop_ok hsl
    simpa [np_unique] using h2

theorem base_two_curves_never_meet_witness :
    find_intersection (constSolver 1 0) 2 2 (.vec [1/2, 1, 2]) = .ok [] := by
  apply base_two_curves_never_meet (constSolver 1 0) ?_ [1/2, 1, 2]
  intro g r hcall h1
  simp only [constSolver, Except.ok.injEq] at hcall
  rw [← hcall] at h1
  norm_num at h1

/-- Counterexample to claim C7 as stated: for `a = 5`, `b = 5` and the single
scalar guess `1.0` the scalar path hands back the raw single-element solver
output, not an empty result set. -/
theorem no_intersection_case_returns_nonempty :
    find_intersection guessSolver 5 5 (.scalar 1) = .ok [1] ∧ ([1] : List ℚ) ≠ [] :=
  ⟨by norm_num [find_intersection, tryBody, guessSolver], by simp⟩

/-- Claim C7, amended: for `a = 5`, `b = 5` and the single scalar guess `1.0`
the function returns the raw one-element solver result whenever the solver
does not raise, so the result set has length `1` and is in particular never
empty. -/
theorem no_intersection_case_result_length_one (fsolve : Solver) (r : FsolveOut)
    (h : fsolve (equation_to_solve 5 5) 1 = .ok r) :
    ∃ l, find_intersection fsolve 5 5 (.scalar 1) = .ok l ∧ l.length = 1 :=
  ⟨[r.root], find_scalar_of_ok h, rfl⟩

theorem no_intersection_case_result_length_one_witness :
    ∃ l, find_intersection guessSolver 5 5 (.scalar 1) = .ok l ∧ l.length = 1 :=
  no_intersection_case_result_length_one guessSolver ⟨1, 1⟩ rfl
